import Mathlib

/-!
Verification of the Hevy-AI-Coach backend (analytics & orchestration engine).

Shallow-embedding conventions, used consistently below:

* Calendar dates are modelled as natural day numbers counted from a fixed
  epoch Monday, so the ISO calendar week (Monday–Sunday) of a date `d` is
  `d / 7` and "previous week" is `w - 1`.  This is the image of Python's
  `date.isocalendar()` bucketing under the order-preserving bijection
  between `(iso_year, iso_week)` pairs and Monday-aligned week indices.
* Python floats (weights, macros, volumes) are modelled as `ℚ`; `round(x)`
  is Mathlib's `round`, `round(x, 1)` is `round1` below.
* Opaque JSON payloads produced by the AI generation port are modelled as
  `ℕ` tokens — the engine never inspects them.
* A fallible call (network fetch, AI generation, DB commit) is modelled as
  an `Except`/`Option` value; a raised exception is the `.error`/`none`
  case, consumed exactly where the source's `try/except` consumes it.
* Database tables are lists of rows; SQLAlchemy's `query(...).first()` is
  `List.find?`, and a unique-constraint violation on commit is modelled by
  the insert function refusing a duplicate key.
-/

namespace HevyCoach

/-- One set of an exercise, from the Hevy payload (`{"weight_kg", "reps"}`).
Missing values default to 0, mirroring `s.get("weight_kg") or 0` in the
source. -/
structure SetEntry where
  weight_kg : ℚ
  reps : ℕ
deriving DecidableEq, Repr

/-- One exercise of a workout: a title, a muscle-group tag and its sets. -/
structure Exercise where
  title : String
  muscle_group : String
  sets : List SetEntry
deriving DecidableEq, Repr

/-- One raw Hevy workout as consumed by the analytics/scheduler code.
`day` is the parsed `start_time` date (day number); `none` models a
missing/unparseable `start_time` (the source then skips date-based logic). -/
structure Workout where
  id : String
  title : String
  day : Option ℕ
  duration_min : Option ℚ
  exercises : List Exercise
deriving DecidableEq, Repr

/-- Python's `round(x, 1)`: round to one decimal digit. -/
def round1 (q : ℚ) : ℚ := (round (q * 10) : ℤ) / 10

/-- Python's `round(x, 2)`: round to two decimal digits. -/
def round2 (q : ℚ) : ℚ := (round (q * 100) : ℤ) / 100

/-- The Epley estimated one-rep max `e1RM = weight * (1 + reps / 30.0)`,
exactly as written in `_compute_workout_metrics`,
`compute_progressive_overload`, `compute_monthly_report` and
`compute_achievements` (analytics_service.py). -/
def e1rm (weight : ℚ) (reps : ℕ) : ℚ := weight * (1 + (reps : ℚ) / 30)

/-- The sets of a workout that count for volume/e1RM: `weight > 0 and
reps > 0` (all analytics functions filter with exactly this guard). -/
def workoutValidSets (w : Workout) : List SetEntry :=
  (w.exercises.flatMap Exercise.sets).filter
    (fun s => decide (0 < s.weight_kg) && decide (0 < s.reps))

/-- `total_volume` accumulated by `_compute_workout_metrics`:
`Σ weight * reps` over valid sets. -/
def workoutTotalVolume (w : Workout) : ℚ :=
  (workoutValidSets w).foldl (fun acc s => acc + s.weight_kg * (s.reps : ℚ)) 0

/-- `best_e1rm` accumulated by `_compute_workout_metrics`: running maximum
of `e1rm` over valid sets, starting from 0. -/
def workoutBestE1rm (w : Workout) : ℚ :=
  (workoutValidSets w).foldl (fun acc s => max acc (e1rm s.weight_kg s.reps)) 0

/-- Result record of `_compute_workout_metrics` (presentation-only `title`
field omitted). -/
structure WorkoutMetrics where
  day : Option ℕ
  total_volume_kg : ℚ
  best_e1rm : ℚ
  exercise_count : ℕ
  duration_min : Option ℚ
deriving DecidableEq, Repr

/-- Embedding of `_compute_workout_metrics` (analytics_service.py):
total volume and best e1RM per workout, volumes rounded to one decimal. -/
def compute_workout_metrics (w : Workout) : WorkoutMetrics where
  day := w.day
  total_volume_kg := round1 (workoutTotalVolume w)
  best_e1rm := round1 (workoutBestE1rm w)
  exercise_count := w.exercises.length
  duration_min := w.duration_min

/-- The credential flags of a user that the aggregator branches on (the
core only ever tests presence; raw secrets stay outside the model). -/
structure AggUser where
  has_yazio_credentials : Bool
  has_hevy_api_key : Bool
deriving DecidableEq, Repr

/-- The context record returned by `gather_user_context` (aggregator.py):
`none` is Python `None` ("source absent"). -/
structure AggContext where
  yazio : Option ℕ
  yazio_today : Option ℕ
  hevy : Option (List Workout)
deriving DecidableEq, Repr

/-- Embedding of `gather_user_context` (aggregator.py).  The two upstream
fetches (together with credential decryption, which happens inside the
same `try`) are oracles; `.error` models a raised exception.  Each source
is independently guarded: a Yazio failure leaves `yazio`/`yazio_today` at
`None`, a Hevy failure leaves `hevy` at `None`, and the function always
returns a context — exceptions are logged and never re-raised.  If the
"yesterday" fetch succeeds but the "today" fetch raises, the already
assigned yesterday value is kept, as in the source. -/
def gather_user_context (user : AggUser)
    (fetch_yazio_yesterday fetch_yazio_today : Except Unit ℕ)
    (fetch_recent_workouts : Except Unit (List Workout))
    (include_today_nutrition : Bool) : AggContext :=
  let yz : Option ℕ × Option ℕ :=
    if user.has_yazio_credentials then
      match fetch_yazio_yesterday with
      | .ok d =>
          if include_today_nutrition then
            match fetch_yazio_today with
            | .ok t => (some d, some t)
            | .error _ => (some d, none)
          else (some d, none)
      | .error _ => (none, none)
    else (none, none)
  let hv : Option (List Workout) :=
    if user.has_hevy_api_key then
      match fetch_recent_workouts with
      | .ok l => some l
      | .error _ => none
    else none
  { yazio := yz.1, yazio_today := yz.2, hevy := hv }

/-- `_dates_to_iso_weeks` (inside `compute_weekly_streaks`): bucket activity
dates into their ISO calendar weeks, as a duplicate-free list (the Python
`set`).  With dates as day numbers from an epoch Monday, the ISO week of
`d` is `d / 7`. -/
def dates_to_iso_weeks (dates : List ℕ) : List ℕ :=
  (dates.map (· / 7)).dedup

/-- The backward walk of `_compute_streak`: starting at week `w`, count
consecutive active weeks, stopping at the first inactive week ("go to
previous week" is `w - 1` under the week numbering). -/
def currentStreakFrom (active : List ℕ) : ℕ → ℕ
  | 0 => if 0 ∈ active then 1 else 0
  | w + 1 => if w + 1 ∈ active then 1 + currentStreakFrom active w else 0

/-- The `longest` fold of `_compute_streak` over the sorted active weeks:
`prev` is the week seen in the previous iteration, `streak` the length of
the current run of consecutive weeks, `longest` the best seen so far. -/
def longestAux : ℕ → ℕ → ℕ → List ℕ → ℕ
  | _, _, longest, [] => longest
  | prev, streak, longest, w :: ws =>
      let s := if w = prev + 1 then streak + 1 else 1
      longestAux w s (max longest s) ws

/-- `longest`/`streak` initialisation of `_compute_streak` (`i == 0` sets
`streak = 1`, then `longest = max longest streak = 1`). -/
def longestStreakOf : List ℕ → ℕ
  | [] => 0
  | w :: ws => longestAux w 1 1 ws

/-- Result record of `_compute_streak`. -/
structure StreakResult where
  current_streak : ℕ
  longest_streak : ℕ
  total_active_weeks : ℕ
deriving DecidableEq, Repr

/-- Embedding of `_compute_streak` (analytics_service.py).  `current_week`
models `date.today().isocalendar()` and is passed as a parameter; the
caller guarantees `active` is duplicate-free (it comes from a set). -/
def compute_streak (active : List ℕ) (current_week : ℕ) : StreakResult :=
  if active = [] then ⟨0, 0, 0⟩
  else
    ⟨currentStreakFrom active current_week,
     longestStreakOf (List.insertionSort (· ≤ ·) active),
     active.length⟩

/-- Result record of `compute_weekly_streaks`. -/
structure WeeklyStreaks where
  training : StreakResult
  nutrition : StreakResult
  combined : StreakResult
deriving DecidableEq, Repr

/-- Embedding of `compute_weekly_streaks` (analytics_service.py): streaks
for training weeks, nutrition weeks and their union. -/
def compute_weekly_streaks (workout_dates nutrition_dates : List ℕ)
    (current_week : ℕ) : WeeklyStreaks :=
  let ww := dates_to_iso_weeks workout_dates
  let nw := dates_to_iso_weeks nutrition_dates
  ⟨compute_streak ww current_week,
   compute_streak nw current_week,
   compute_streak (ww ∪ nw) current_week⟩

/-- `EndsAt active e n`: the `n` consecutive weeks `e - n + 1, …, e` are
all active — a run of `n` consecutive ISO weeks ending at week `e`. -/
def EndsAt (active : List ℕ) (e n : ℕ) : Prop :=
  n ≤ e + 1 ∧ ∀ i < n, e - i ∈ active

/-- Nutrition goals of one tracked day (`goals` sub-dict; only the fields
the correlation/achievement code reads). -/
structure NutritionGoals where
  calories : ℚ
  protein : ℚ
deriving DecidableEq, Repr

/-- One tracked nutrition day (`nutrition_by_date` values); missing fields
default to 0 as with `.get(..., 0)` in the source. -/
structure NutritionDay where
  calories : ℚ
  protein : ℚ
  carbs : ℚ
  fat : ℚ
  goals : NutritionGoals
deriving DecidableEq, Repr

/-- `nutrition_by_date.get(day)`: the nutrition map as an association list
keyed by day number. -/
def nutritionLookup (m : List (ℕ × NutritionDay)) (d : ℕ) : Option NutritionDay :=
  (m.find? (fun p => p.1 == d)).map (·.2)

/-- One paired data point of `compute_macro_performance_correlation`
(presentation-only `workout_title`/`duration_min` fields omitted). -/
structure DataPoint where
  workout_day : ℕ
  volume : ℚ
  best_e1rm : ℚ
  prev_day_calories : ℚ
  prev_day_protein : ℚ
  prev_day_carbs : ℚ
  prev_day_fat : ℚ
  calorie_goal : ℚ
  protein_goal : ℚ
deriving DecidableEq, Repr

/-- The pairing loop of `compute_macro_performance_correlation`: each
workout with a parseable date is paired with the *previous calendar day's*
nutrition record; workouts without a date or without a matching prior-day
record are dropped. -/
def buildDataPoints (workouts : List Workout)
    (nutrition_by_date : List (ℕ × NutritionDay)) : List DataPoint :=
  workouts.filterMap (fun w =>
    match w.day with
    | none => none
    | some d =>
        match nutritionLookup nutrition_by_date (d - 1) with
        | none => none
        | some nut =>
            some { workout_day := d
                   volume := (compute_workout_metrics w).total_volume_kg
                   best_e1rm := (compute_workout_metrics w).best_e1rm
                   prev_day_calories := nut.calories
                   prev_day_protein := nut.protein
                   prev_day_carbs := nut.carbs
                   prev_day_fat := nut.fat
                   calorie_goal := nut.goals.calories
                   protein_goal := nut.goals.protein })

/-- `avg_carbs`: sample mean of previous-day carbs over the data points. -/
def carbMean (pts : List DataPoint) : ℚ :=
  (pts.map (·.prev_day_carbs)).sum / (pts.length : ℚ)

/-- `high_carb_sessions`: points strictly above the carb sample mean. -/
def highCarbSessions (pts : List DataPoint) : List DataPoint :=
  pts.filter (fun d => decide (carbMean pts < d.prev_day_carbs))

/-- `low_carb_sessions`: points at or below the carb sample mean. -/
def lowCarbSessions (pts : List DataPoint) : List DataPoint :=
  pts.filter (fun d => decide (d.prev_day_carbs ≤ carbMean pts))

/-- `avg_protein`: sample mean of previous-day protein. -/
def proteinMean (pts : List DataPoint) : ℚ :=
  (pts.map (·.prev_day_protein)).sum / (pts.length : ℚ)

/-- `high_protein`: points strictly above the protein sample mean. -/
def highProteinSessions (pts : List DataPoint) : List DataPoint :=
  pts.filter (fun d => decide (proteinMean pts < d.prev_day_protein))

/-- `low_protein`: points at or below the protein sample mean. -/
def lowProteinSessions (pts : List DataPoint) : List DataPoint :=
  pts.filter (fun d => decide (d.prev_day_protein ≤ proteinMean pts))

/-- `surplus_sessions`: previous-day calories ≥ 95% of the calorie goal
("hit the calorie goal"). -/
def surplusSessions (pts : List DataPoint) : List DataPoint :=
  pts.filter (fun d => decide (d.calorie_goal * (95 / 100) ≤ d.prev_day_calories))

/-- `deficit_sessions`: previous-day calories < 95% of the calorie goal. -/
def deficitSessions (pts : List DataPoint) : List DataPoint :=
  pts.filter (fun d => decide (d.prev_day_calories < d.calorie_goal * (95 / 100)))

/-- One correlation insight (`type` and the numeric payloads; the
presentation-only `message_de`/`message_en` strings are omitted).
`threshold` is `round(avg)` where the source includes it, `none` where the
source's insight dict has no `threshold` key. -/
structure Insight where
  type : String
  diff_percent : ℚ
  threshold : Option ℤ
deriving DecidableEq, Repr

/-- Result record of `compute_macro_performance_correlation`. -/
structure CorrelationResult where
  data_points : List DataPoint
  insights : List Insight
  has_enough_data : Bool
  total_correlated_workouts : ℕ
deriving DecidableEq, Repr

/-- Embedding of `compute_macro_performance_correlation`
(analytics_service.py); the name avoids the word reserved by Lean
tooling.  Pairs each workout with the previous day's nutrition, then (with
≥ 2 points) mean-splits by carbs and protein and splits by the 95%-of-goal
calorie test, emitting a percentage-difference insight for each split
whose low-group mean is positive; insight order follows the source's
`insights.append` order. -/
def compute_nutrition_performance_correlation (workouts : List Workout)
    (nutrition_by_date : List (ℕ × NutritionDay)) : CorrelationResult :=
  let data_points := buildDataPoints workouts nutrition_by_date
  if data_points.length < 2 then
    ⟨data_points, [], false, data_points.length⟩
  else
    let high_carb := highCarbSessions data_points
    let low_carb := lowCarbSessions data_points
    let ins_carb : List Insight :=
      if high_carb ≠ [] ∧ low_carb ≠ [] then
        let avg_vol_high := (high_carb.map (·.volume)).sum / (high_carb.length : ℚ)
        let avg_vol_low := (low_carb.map (·.volume)).sum / (low_carb.length : ℚ)
        let avg_e1rm_high := (high_carb.map (·.best_e1rm)).sum / (high_carb.length : ℚ)
        let avg_e1rm_low := (low_carb.map (·.best_e1rm)).sum / (low_carb.length : ℚ)
        (if 0 < avg_vol_low then
          [⟨"carb_volume", round1 ((avg_vol_high - avg_vol_low) / avg_vol_low * 100),
            some (round (carbMean data_points))⟩]
         else []) ++
        (if 0 < avg_e1rm_low then
          [⟨"carb_strength", round1 ((avg_e1rm_high - avg_e1rm_low) / avg_e1rm_low * 100),
            none⟩]
         else [])
      else []
    let high_prot := highProteinSessions data_points
    let low_prot := lowProteinSessions data_points
    let ins_prot : List Insight :=
      if high_prot ≠ [] ∧ low_prot ≠ [] then
        let avg_vol_hp := (high_prot.map (·.volume)).sum / (high_prot.length : ℚ)
        let avg_vol_lp := (low_prot.map (·.volume)).sum / (low_prot.length : ℚ)
        if 0 < avg_vol_lp then
          [⟨"protein_volume", round1 ((avg_vol_hp - avg_vol_lp) / avg_vol_lp * 100),
            some (round (proteinMean data_points))⟩]
        else []
      else []
    let surplus := surplusSessions data_points
    let deficit := deficitSessions data_points
    let ins_cal : List Insight :=
      if surplus ≠ [] ∧ deficit ≠ [] then
        let avg_vol_s := (surplus.map (·.volume)).sum / (surplus.length : ℚ)
        let avg_vol_d := (deficit.map (·.volume)).sum / (deficit.length : ℚ)
        if 0 < avg_vol_d then
          [⟨"calorie_target", round1 ((avg_vol_s - avg_vol_d) / avg_vol_d * 100), none⟩]
        else []
      else []
    ⟨data_points, ins_carb ++ ins_prot ++ ins_cal,
     decide (3 ≤ data_points.length), data_points.length⟩

/-- Example workout for the C7 instance: one exercise, one set of
100 kg × reps on the given day, so total volume is 100 * reps. -/
def corrExampleWorkout (d reps : ℕ) : Workout :=
  { id := "", title := "W", day := some d, duration_min := none,
    exercises := [⟨"Squat (Barbell)", "legs", [⟨100, reps⟩]⟩] }

/-- Example nutrition day with the given carbs and everything else 0. -/
def corrExampleNutrition (carbs : ℚ) : NutritionDay :=
  ⟨0, 0, carbs, 0, ⟨0, 0⟩⟩

/-- The four workouts of the C7 instance: volumes 1000, 1000, 2000, 2000. -/
def corrExampleWorkouts : List Workout :=
  [corrExampleWorkout 11 10, corrExampleWorkout 12 10,
   corrExampleWorkout 13 20, corrExampleWorkout 14 20]

/-- The previous-day nutrition map of the C7 instance: carbs 50, 50, 200,
200 for the days preceding the four workouts. -/
def corrExampleNutritionByDate : List (ℕ × NutritionDay) :=
  [(10, corrExampleNutrition 50), (11, corrExampleNutrition 50),
   (12, corrExampleNutrition 200), (13, corrExampleNutrition 200)]

/-- The paired points of the C7 instance. -/
def corrExamplePoints : List DataPoint :=
  buildDataPoints corrExampleWorkouts corrExampleNutritionByDate

/-- One achievement entry produced by `compute_achievements`
(presentation-only name/description/icon fields omitted; `unlocked_date`
is the constant `None` in the source and omitted). -/
structure Achievement where
  id : String
  category : String
  unlocked : Bool
  progress : ℚ
  target : ℚ
deriving DecidableEq, Repr

/-- All (exercise title, weight, reps) triples of valid sets (`weight > 0
and reps > 0`) across all workouts — the flattened `all_exercises`
accumulator of the helper loop in `compute_achievements`. -/
def allValidSets (workouts : List Workout) : List (String × ℚ × ℕ) :=
  workouts.flatMap (fun w => w.exercises.flatMap (fun ex =>
    (ex.sets.filter (fun s => decide (0 < s.weight_kg) && decide (0 < s.reps))).map
      (fun s => (ex.title, s.weight_kg, s.reps))))

/-- `total_volume_all_time`: Σ weight * reps over all valid sets. -/
def totalVolumeAllTime (workouts : List Workout) : ℚ :=
  ((allValidSets workouts).map (fun t => t.2.1 * (t.2.2 : ℚ))).sum

/-- `unique_exercises = len(all_exercises)`: distinct exercise titles with
at least one valid set. -/
def uniqueExercises (workouts : List Workout) : ℕ :=
  ((allValidSets workouts).map (·.1)).dedup.length

/-- ASCII lower-casing of one character (Python `str.lower` on the ASCII
exercise titles involved). -/
def lowerChar (c : Char) : Char :=
  if 'A' ≤ c ∧ c ≤ 'Z' then Char.ofNat (c.toNat + 32) else c

/-- Lower-cased character list of a string (`s.lower()`). -/
def lowerStr (s : String) : List Char := s.data.map lowerChar

/-- Whether `p` is an initial segment of `l` (helper for substring). -/
def startsWithList : List Char → List Char → Bool
  | [], _ => true
  | _ :: _, [] => false
  | a :: as, b :: bs => a == b && startsWithList as bs

/-- Python's substring containment `needle in hay`. -/
def occursIn (needle : List Char) : List Char → Bool
  | [] => startsWithList needle []
  | c :: cs => startsWithList needle (c :: cs) || occursIn needle cs

/-- `max_weight` for one strength milestone: the maximum raw set weight
over valid sets of all exercises whose title contains `ex_name`
case-insensitively (`if ex_name.lower() in ename.lower()`), starting from
0.  The estimated one-rep max plays no role here. -/
def maxWeightFor (workouts : List Workout) (ex_name : String) : ℚ :=
  ((allValidSets workouts).filter
      (fun t => occursIn (lowerStr ex_name) (lowerStr t.1))).foldl
    (fun acc t => max acc t.2.1) 0

/-- `protein_target_days`: days whose protein goal is positive and whose
actual protein reaches 95% of it. -/
def proteinTargetDays (nutrition_by_date : List (ℕ × NutritionDay)) : ℕ :=
  (nutrition_by_date.filter (fun p =>
    decide (0 < p.2.goals.protein) &&
      decide (p.2.goals.protein * (95 / 100) ≤ p.2.protein))).length

/-- One body-weight reading (weight_entries rows, ordered as given). -/
structure WeightEntryRow where
  day : ℕ
  weight_kg : ℚ
deriving DecidableEq, Repr

/-- `total_change = abs(round(last_w - first_w, 1))` over the weight
entries (only read when there are at least two entries). -/
def weightTotalChange (weight_entries : List WeightEntryRow) : ℚ :=
  match weight_entries.head?, weight_entries.getLast? with
  | some f, some l => |round1 (l.weight_kg - f.weight_kg)|
  | _, _ => 0

/-- `workout_milestones` catalogue: (threshold, id). -/
def workout_milestones : List (ℕ × String) :=
  [(1, "first_workout"), (10, "10_workouts"), (25, "25_workouts"),
   (50, "50_workouts"), (100, "100_workouts"), (200, "200_workouts")]

/-- `vol_milestones` catalogue: (threshold, id). -/
def vol_milestones : List (ℕ × String) :=
  [(10000, "10k_volume"), (50000, "50k_volume"), (100000, "100k_volume"),
   (500000, "500k_volume"), (1000000, "1m_volume")]

/-- `strength_targets` catalogue: (exercise name, threshold kg, id). -/
def strength_targets : List (String × ℕ × String) :=
  [("Bench Press (Barbell)", 60, "bench_60"),
   ("Bench Press (Barbell)", 80, "bench_80"),
   ("Bench Press (Barbell)", 100, "bench_100"),
   ("Bench Press (Barbell)", 140, "bench_140"),
   ("Squat (Barbell)", 100, "squat_100"),
   ("Squat (Barbell)", 140, "squat_140"),
   ("Squat (Barbell)", 180, "squat_180"),
   ("Deadlift (Barbell)", 100, "deadlift_100"),
   ("Deadlift (Barbell)", 140, "deadlift_140"),
   ("Deadlift (Barbell)", 180, "deadlift_180"),
   ("Deadlift (Barbell)", 220, "deadlift_220"),
   ("Overhead Press (Barbell)", 60, "ohp_60"),
   ("Overhead Press (Barbell)", 80, "ohp_80")]

/-- `nutrition_milestones` catalogue: (threshold, id). -/
def nutrition_milestones : List (ℕ × String) :=
  [(7, "7_days_tracked"), (30, "30_days_tracked"), (90, "90_days_tracked"),
   (180, "180_days_tracked"), (365, "365_days_tracked")]

/-- `prot_milestones` catalogue: (threshold, id). -/
def prot_milestones : List (ℕ × String) :=
  [(7, "protein_7"), (30, "protein_30"), (100, "protein_100")]

/-- `streak_milestones` catalogue: (threshold, id). -/
def streak_milestones : List (ℕ × String) :=
  [(4, "streak_4"), (8, "streak_8"), (12, "streak_12"),
   (26, "streak_26"), (52, "streak_52")]

/-- `weight_milestones` catalogue: (threshold, id). -/
def weight_milestones : List (ℕ × String) :=
  [(2, "weight_2kg"), (5, "weight_5kg"), (10, "weight_10kg")]

/-- `variety_milestones` catalogue: (threshold, id). -/
def variety_milestones : List (ℕ × String) :=
  [(10, "variety_10"), (25, "variety_25"), (50, "variety_50")]

/-- The shared count-milestone shape of the workout / nutrition / protein
/ streak / variety sections: `unlocked = value ≥ target`,
`progress = min(value, target)`. -/
def mkCountAch (cat : String) (value : ℕ) (p : ℕ × String) : Achievement :=
  ⟨p.2, cat, decide (p.1 ≤ value), ((min value p.1 : ℕ) : ℚ), (p.1 : ℚ)⟩

/-- Embedding of `compute_achievements` (analytics_service.py): the fixed
catalogue evaluated against the subject's computed progress values, in the
source's section order.  `current_week` parametrises `date.today()` inside
the streak computation. -/
def compute_achievements (workouts : List Workout)
    (nutrition_dates workout_dates : List ℕ)
    (weight_entries : List WeightEntryRow)
    (nutrition_by_date : List (ℕ × NutritionDay))
    (current_week : ℕ) : List Achievement :=
  let total_volume := totalVolumeAllTime workouts
  let longest_training :=
    (compute_weekly_streaks workout_dates nutrition_dates current_week).training.longest_streak
  workout_milestones.map (mkCountAch "training" workouts.length) ++
  vol_milestones.map (fun p =>
    ⟨p.2, "training", decide ((p.1 : ℚ) ≤ total_volume),
     ((min (round total_volume) (p.1 : ℤ) : ℤ) : ℚ), (p.1 : ℚ)⟩) ++
  strength_targets.map (fun t =>
    ⟨t.2.2, "strength", decide ((t.2.1 : ℚ) ≤ maxWeightFor workouts t.1),
     ((min (round (maxWeightFor workouts t.1)) (t.2.1 : ℤ) : ℤ) : ℚ),
     (t.2.1 : ℚ)⟩) ++
  nutrition_milestones.map (mkCountAch "nutrition" nutrition_dates.length) ++
  prot_milestones.map (mkCountAch "nutrition" (proteinTargetDays nutrition_by_date)) ++
  streak_milestones.map (mkCountAch "consistency" longest_training) ++
  (if 2 ≤ weight_entries.length then
    weight_milestones.map (fun p =>
      ⟨p.2, "body", decide ((p.1 : ℚ) ≤ weightTotalChange weight_entries),
       min (round1 (weightTotalChange weight_entries)) (p.1 : ℚ), (p.1 : ℚ)⟩)
   else []) ++
  variety_milestones.map (mkCountAch "training" (uniqueExercises workouts))

/-- The per-section raw progress value compared against the threshold, as
a function of the achievement id: strength ids map to the matching
exercise's `max_weight`; every other id maps to its section's metric. -/
def achievementRawProgress (workouts : List Workout)
    (nutrition_dates workout_dates : List ℕ)
    (weight_entries : List WeightEntryRow)
    (nutrition_by_date : List (ℕ × NutritionDay))
    (current_week : ℕ) (aid : String) : ℚ :=
  match strength_targets.find? (fun t => t.2.2 == aid) with
  | some t => maxWeightFor workouts t.1
  | none =>
    if workout_milestones.any (·.2 == aid) then (workouts.length : ℚ)
    else if vol_milestones.any (·.2 == aid) then totalVolumeAllTime workouts
    else if nutrition_milestones.any (·.2 == aid) then (nutrition_dates.length : ℚ)
    else if prot_milestones.any (·.2 == aid) then (proteinTargetDays nutrition_by_date : ℚ)
    else if streak_milestones.any (·.2 == aid) then
      ((compute_weekly_streaks workout_dates nutrition_dates current_week).training.longest_streak : ℚ)
    else if weight_milestones.any (·.2 == aid) then weightTotalChange weight_entries
    else (uniqueExercises workouts : ℚ)

/-- A workout with no exercises, for the C9 boundary instance. -/
def emptyWorkout : Workout := ⟨"", "W", none, none, []⟩

/-- The single workout of the C10 instance: one valid set of 95 kg × 10
on the bench press (e1RM 126.7 > 100, raw weight 95 < 100). -/
def benchWorkout : Workout :=
  ⟨"", "W", none, none, [⟨"Bench Press (Barbell)", "chest", [⟨95, 10⟩]⟩]⟩

/-- One `workout_reviews` row (payloads as opaque tokens; `created_at`
server-side column omitted). -/
structure WorkoutReviewRow where
  user_id : ℕ
  hevy_workout_id : String
  workout_name : String
  review_data : ℕ
  tips_data : ℕ
  is_read : Bool
deriving DecidableEq, Repr

/-- The existence check of `_generate_workout_review_for_user`:
`db.query(WorkoutReview).filter(user_id == uid, hevy_workout_id ==
sid).first()` is truthy. -/
def hasReview (db : List WorkoutReviewRow) (uid : ℕ) (sid : String) : Bool :=
  db.any (fun r => r.user_id == uid && r.hevy_workout_id == sid)

/-- Result of one run of the review loop: the final table, the number of
new reviews generated, and the session ids for which the generation
pipeline (context gathering + the two AI calls) was invoked. -/
structure ReviewRunResult where
  db : List WorkoutReviewRow
  generated : ℕ
  gen_calls : List String
deriving DecidableEq, Repr

/-- Embedding of the per-workout loop of
`_generate_workout_review_for_user` (scheduler.py).  `gen` is the
generation oracle: `some (r, t)` yields the review and tips payloads,
`none` models an exception anywhere inside the `try` (context gathering or
either AI call), which is caught, rolled back and the loop continues.  The
already-reviewed check runs *before* the cap check and before any
generation call; reaching the cap with an un-reviewed session `break`s the
loop; a successful commit appends one row with `is_read = false` and
increments `generated`. -/
def runReviewLoop (uid : ℕ) (gen : String → Option (ℕ × ℕ)) (max_new : ℕ) :
    List Workout → List WorkoutReviewRow → ℕ → ReviewRunResult
  | [], db, generated => ⟨db, generated, []⟩
  | w :: ws, db, generated =>
    if w.id = "" then runReviewLoop uid gen max_new ws db generated
    else if hasReview db uid w.id then runReviewLoop uid gen max_new ws db generated
    else if max_new ≤ generated then ⟨db, generated, []⟩
    else
      match gen w.id with
      | some (r, t) =>
          ⟨(runReviewLoop uid gen max_new ws
              (db ++ [⟨uid, w.id, w.title, r, t, false⟩]) (generated + 1)).db,
           (runReviewLoop uid gen max_new ws
              (db ++ [⟨uid, w.id, w.title, r, t, false⟩]) (generated + 1)).generated,
           w.id :: (runReviewLoop uid gen max_new ws
              (db ++ [⟨uid, w.id, w.title, r, t, false⟩]) (generated + 1)).gen_calls⟩
      | none =>
          ⟨(runReviewLoop uid gen max_new ws db generated).db,
           (runReviewLoop uid gen max_new ws db generated).generated,
           w.id :: (runReviewLoop uid gen max_new ws db generated).gen_calls⟩

/-- Embedding of `_generate_workout_review_for_user` (scheduler.py).
`fetched = none` models a missing Hevy key or a failed fetch (return 0);
an empty fetched list also returns 0; otherwise the per-workout loop runs
with `generated = 0`. -/
def generate_workout_review_for_user (uid : ℕ) (gen : String → Option (ℕ × ℕ))
    (max_new : ℕ) (fetched : Option (List Workout))
    (db : List WorkoutReviewRow) : ReviewRunResult :=
  match fetched with
  | none => ⟨db, 0, []⟩
  | some [] => ⟨db, 0, []⟩
  | some ws => runReviewLoop uid gen max_new ws db 0

/-- The number of sessions in the fetched list with no existing review. -/
def unreviewedCount (db : List WorkoutReviewRow) (uid : ℕ)
    (ws : List Workout) : ℕ :=
  (ws.filter (fun w => !hasReview db uid w.id)).length

/-- One `morning_briefings` row (payload as opaque token). -/
structure MorningBriefingRow where
  user_id : ℕ
  date : ℕ
  briefing_data : ℕ
deriving DecidableEq, Repr

/-- One `weight_entries` row. -/
structure WeightRow where
  user_id : ℕ
  date : ℕ
  weight_kg : ℚ
deriving DecidableEq, Repr

/-- The existing-briefing check of `_generate_for_user` /
`get_todays_briefing`. -/
def hasBriefing (briefings : List MorningBriefingRow) (uid today : ℕ) : Bool :=
  briefings.any (fun b => b.user_id == uid && b.date == today)

/-- The existing-weight-entry check of `_generate_for_user`. -/
def hasWeightEntry (weights : List WeightRow) (uid today : ℕ) : Bool :=
  weights.any (fun e => e.user_id == uid && e.date == today)

/-- Result of one `_generate_for_user` call: the two tables, the returned
success flag, and whether aggregation / generation were invoked. -/
structure DailyRunResult where
  briefings : List MorningBriefingRow
  weights : List WeightRow
  ok : Bool
  aggregated : Bool
  generated : Bool
deriving DecidableEq, Repr

/-- Embedding of `_generate_for_user` (scheduler.py).  `ctx_weight` is the
current weight surfaced by the aggregated Yazio context (`none` when the
yazio context or its profile/weight is missing); `gen` is the
daily-briefing generation oracle (`none` = exception).  The
existing-briefing check precedes any aggregation or generation (skip =
success, no-op); the weight entry is committed separately *before*
generation and survives a later generation failure; a generation failure
rolls back the briefing insert and reports failure. -/
def generate_for_user (uid today : ℕ) (ctx_weight : Option ℚ) (gen : Option ℕ)
    (briefings : List MorningBriefingRow) (weights : List WeightRow) :
    DailyRunResult :=
  if hasBriefing briefings uid today then
    ⟨briefings, weights, true, false, false⟩
  else
    let weights' :=
      match ctx_weight with
      | some wgt =>
          if 0 < wgt ∧ hasWeightEntry weights uid today = false then
            weights ++ [⟨uid, today, round2 wgt⟩]
          else weights
      | none => weights
    match gen with
    | some payload => ⟨briefings ++ [⟨uid, today, payload⟩], weights', true, true, true⟩
    | none => ⟨briefings, weights', false, true, true⟩

/-- Embedding of the persistence step of `_generate_and_save`
(routes/briefing.py).  `db.add(briefing); db.commit()` raises exactly when
the unique key (subject, date) is already present (a racing writer); the
handler then rolls back (leaving the store unchanged), re-reads with
`.first()`, returns the existing row when found, and raises HTTP 500
(`.error`) only when the re-read finds nothing. -/
def generate_and_save (uid today briefing_data : ℕ)
    (store : List MorningBriefingRow) :
    Except Unit (MorningBriefingRow × List MorningBriefingRow) :=
  if hasBriefing store uid today then
    match store.find? (fun b => b.user_id == uid && b.date == today) with
    | some existing => .ok (existing, store)
    | none => .error ()
  else
    .ok (⟨uid, today, briefing_data⟩, store ++ [⟨uid, today, briefing_data⟩])

lemma currentStreakFrom_le (active : List ℕ) (w : ℕ) :
    currentStreakFrom active w ≤ w + 1 := by
  induction w with
  | zero => unfold currentStreakFrom; split <;> omega
  | succ n ih => unfold currentStreakFrom; split <;> omega

lemma currentStreakFrom_mem (active : List ℕ) :
    ∀ w, ∀ i < currentStreakFrom active w, w - i ∈ active := by
  intro w
  induction w with
  | zero =>
      intro i hi
      unfold currentStreakFrom at hi
      split at hi
      · interval_cases i
        simpa using ‹0 ∈ active›
      · omega
  | succ n ih =>
      intro i hi
      unfold currentStreakFrom at hi
      split at hi
      · cases i with
        | zero => simpa using ‹n + 1 ∈ active›
        | succ j =>
            have hj := ih j (by omega)
            simpa [Nat.succ_sub_succ] using hj
      · omega

lemma currentStreakFrom_endsAt (active : List ℕ) (w : ℕ) :
    EndsAt active w (currentStreakFrom active w) :=
  ⟨currentStreakFrom_le active w, currentStreakFrom_mem active w⟩

lemma currentStreakFrom_gap (active : List ℕ) :
    ∀ w, currentStreakFrom active w ≤ w →
      w - currentStreakFrom active w ∉ active := by
  intro w
  induction w with
  | zero =>
      unfold currentStreakFrom
      split
      · omega
      · intro _; simpa using ‹0 ∉ active›
  | succ n ih =>
      unfold currentStreakFrom
      split
      · intro hle
        have h1 : currentStreakFrom active n ≤ n := by omega
        have h2 := ih h1
        have heq : n + 1 - (1 + currentStreakFrom active n)
            = n - currentStreakFrom active n := by omega
        rwa [heq]
      · intro _; simpa using ‹n + 1 ∉ active›

lemma longestAux_exists (active : List ℕ) :
    ∀ (ws : List ℕ) (prev streak longest : ℕ),
      (∀ w ∈ ws, w ∈ active) →
      EndsAt active prev streak →
      (∃ e, EndsAt active e longest) →
      ∃ e, EndsAt active e (longestAux prev streak longest ws) := by
  intro ws
  induction ws with
  | nil => intro prev streak longest _ _ h; exact h
  | cons w ws ih =>
      intro prev streak longest hws hstreak hlongest
      have hwa : w ∈ active := hws w (by simp)
      show ∃ e, EndsAt active e
        (longestAux w (if w = prev + 1 then streak + 1 else 1)
          (max longest (if w = prev + 1 then streak + 1 else 1)) ws)
      have hruns : EndsAt active w (if w = prev + 1 then streak + 1 else 1) := by
        have hb := hstreak.1
        split
        · rename_i hw
          refine ⟨by omega, ?_⟩
          intro i hi
          cases i with
          | zero => simpa using hwa
          | succ j =>
              have := hstreak.2 j (by omega)
              have heq : w - (j + 1) = prev - j := by omega
              rwa [heq]
        · exact ⟨by omega, fun i hi => by interval_cases i; simpa using hwa⟩
      apply ih w _ _ (fun x hx => hws x (List.mem_cons_of_mem _ hx)) hruns
      rcases le_total longest (if w = prev + 1 then streak + 1 else 1) with h | h
      · exact ⟨w, by rwa [max_eq_right h]⟩
      · rcases hlongest with ⟨e, he⟩
        exact ⟨e, by rwa [max_eq_left h]⟩

lemma longestAux_ge (active : List ℕ) :
    ∀ (ws : List ℕ) (prev streak longest : ℕ),
      (prev :: ws).Sorted (· < ·) →
      (∀ x ∈ active, x ≤ prev ∨ x ∈ ws) →
      (∀ n, EndsAt active prev n → n ≤ streak) →
      (∀ e, e < prev → ∀ n, EndsAt active e n → n ≤ longest) →
      streak ≤ longest →
      ∀ e n, EndsAt active e n → n ≤ longestAux prev streak longest ws := by
  intro ws
  induction ws with
  | nil =>
      intro prev streak longest _ hcover hprev hdone hls e n hen
      show n ≤ longest
      rcases Nat.eq_zero_or_pos n with rfl | hn
      · omega
      · have he : e ∈ active := by simpa using hen.2 0 hn
        rcases hcover e he with hle | hmem
        · rcases lt_or_eq_of_le hle with hlt | rfl
          · exact hdone e hlt n hen
          · exact le_trans (hprev n hen) hls
        · simp at hmem
  | cons w ws ih =>
      intro prev streak longest hsorted hcover hprev hdone hls e n hen
      have hpw : prev < w := (List.sorted_cons.mp hsorted).1 w (by simp)
      have htail : (w :: ws).Sorted (· < ·) := (List.sorted_cons.mp hsorted).2
      have hwlt : ∀ x ∈ ws, w < x := (List.sorted_cons.mp htail).1
      have hgap : ∀ x ∈ active, prev < x → x < w → False := by
        intro x hx h1 h2
        rcases hcover x hx with hle | hmem
        · omega
        · rcases List.mem_cons.mp hmem with rfl | hmem'
          · omega
          · have := hwlt x hmem'; omega
      show n ≤ longestAux w (if w = prev + 1 then streak + 1 else 1)
        (max longest (if w = prev + 1 then streak + 1 else 1)) ws
      have hsge1 : 1 ≤ (if w = prev + 1 then streak + 1 else 1) := by split <;> omega
      apply ih w _ _ htail ?_ ?_ ?_ (le_max_right _ _) e n hen
      · -- cover
        intro x hx
        rcases hcover x hx with hle | hmem
        · exact Or.inl (by omega)
        · rcases List.mem_cons.mp hmem with rfl | hmem'
          · exact Or.inl le_rfl
          · exact Or.inr hmem'
      · -- runs ending at w are bounded by the new streak value
        intro m hm
        match m, hm with
        | 0, _ => omega
        | 1, _ => omega
        | m + 2, hm =>
          have h1 : w - 1 ∈ active := hm.2 1 (by omega)
          have hwge : m + 1 ≤ w := by have := hm.1; omega
          by_cases hweq : w = prev + 1
          · have hshift : EndsAt active prev (m + 1) := by
              refine ⟨by omega, fun i hi => ?_⟩
              have := hm.2 (i + 1) (by omega)
              have heq : w - (i + 1) = prev - i := by omega
              rwa [heq] at this
            have := hprev (m + 1) hshift
            simp only [if_pos hweq]
            omega
          · exfalso
            exact hgap (w - 1) h1 (by omega) (by omega)
      · -- runs ending strictly before w are bounded by the new longest
        intro e' he' m hm
        rcases Nat.eq_zero_or_pos m with rfl | hmpos
        · omega
        have hea : e' ∈ active := by simpa using hm.2 0 hmpos
        have hle' : e' ≤ prev := by
          rcases hcover e' hea with h | h
          · exact h
          · rcases List.mem_cons.mp h with rfl | h'
            · omega
            · have := hwlt e' h'; omega
        rcases lt_or_eq_of_le hle' with hlt | rfl
        · exact le_trans (hdone e' hlt m hm) (le_max_left _ _)
        · exact le_trans (le_trans (hprev m hm) hls) (le_max_left _ _)

lemma longestStreakOf_exists (active : List ℕ) :
    ∃ e, EndsAt active e (longestStreakOf (List.insertionSort (· ≤ ·) active)) := by
  rcases hsort : List.insertionSort (· ≤ ·) active with _ | ⟨w, ws⟩
  · exact ⟨0, by simp [longestStreakOf, EndsAt]⟩
  · have hperm : (w :: ws).Perm active := by
      have := List.perm_insertionSort (· ≤ ·) active
      rwa [hsort] at this
    have hmem : ∀ x ∈ w :: ws, x ∈ active := fun x hx => hperm.subset hx
    have hwa : w ∈ active := hmem w (by simp)
    show ∃ e, EndsAt active e (longestAux w 1 1 ws)
    apply longestAux_exists active ws w 1 1
      (fun x hx => hmem x (List.mem_cons_of_mem _ hx))
    · exact ⟨by omega, fun i hi => by interval_cases i; simpa using hwa⟩
    · exact ⟨w, by omega, fun i hi => by interval_cases i; simpa using hwa⟩

lemma longestStreakOf_ge (active : List ℕ) (hnd : active.Nodup) :
    ∀ e n, EndsAt active e n →
      n ≤ longestStreakOf (List.insertionSort (· ≤ ·) active) := by
  rcases hsort : List.insertionSort (· ≤ ·) active with _ | ⟨w, ws⟩
  · intro e n hen
    have hnil : active = [] := by
      have := List.perm_insertionSort (· ≤ ·) active
      rw [hsort] at this
      exact this.symm.eq_nil
    rcases Nat.eq_zero_or_pos n with rfl | hn
    · omega
    · have : e ∈ active := by simpa using hen.2 0 hn
      rw [hnil] at this
      simp at this
  · have hperm : (w :: ws).Perm active := by
      have := List.perm_insertionSort (· ≤ ·) active
      rwa [hsort] at this
    have hsorted_le : (w :: ws).Sorted (· ≤ ·) := by
      have := List.sorted_insertionSort (· ≤ ·) active
      rwa [hsort] at this
    have hnd2 : (w :: ws).Nodup := hperm.symm.nodup hnd
    have hsorted : (w :: ws).Sorted (· < ·) := hsorted_le.lt_of_le hnd2
    have hwlt : ∀ x ∈ ws, w < x := (List.sorted_cons.mp hsorted).1
    intro e n hen
    show n ≤ longestAux w 1 1 ws
    apply longestAux_ge active ws w 1 1 hsorted ?_ ?_ ?_ le_rfl e n hen
    · intro x hx
      rcases List.mem_cons.mp (hperm.symm.subset hx) with rfl | h
      · exact Or.inl le_rfl
      · exact Or.inr h
    · intro m hm
      match m, hm with
      | 0, _ => omega
      | 1, _ => omega
      | m + 2, hm =>
        exfalso
        have h1 : w - 1 ∈ active := hm.2 1 (by omega)
        have hwge : m + 1 ≤ w := by have := hm.1; omega
        rcases List.mem_cons.mp (hperm.symm.subset h1) with heq | h'
        · omega
        · have := hwlt _ h'; omega
    · intro e' he' m hm
      rcases Nat.eq_zero_or_pos m with rfl | hmpos
      · omega
      exfalso
      have hea : e' ∈ active := by simpa using hm.2 0 hmpos
      rcases List.mem_cons.mp (hperm.symm.subset hea) with rfl | h'
      · omega
      · have := hwlt _ h'; omega

/-- C6: the weekly-streak computation buckets dates into ISO weeks; the
current streak is a run of consecutive active weeks ending at the present
week and maximal (walking backward until the first gap); the longest
streak is the length of the longest run of consecutive ISO weeks in the
active-week set (it is realised by some run and bounds every run); and for
active weeks {W1, W3, W4, W5} with the present week W5, the computation
gives current_streak = 3 and longest_streak = 3. -/
theorem compute_weekly_streaks_correct :
    (∀ (dates : List ℕ) (w : ℕ),
      w ∈ dates_to_iso_weeks dates ↔ ∃ d ∈ dates, d / 7 = w) ∧
    (∀ (active : List ℕ) (cw : ℕ),
      EndsAt active cw (currentStreakFrom active cw) ∧
      (currentStreakFrom active cw ≤ cw →
        cw - currentStreakFrom active cw ∉ active)) ∧
    (∀ active : List ℕ, active.Nodup →
      (∃ e, EndsAt active e
        (longestStreakOf (List.insertionSort (· ≤ ·) active))) ∧
      (∀ e n, EndsAt active e n →
        n ≤ longestStreakOf (List.insertionSort (· ≤ ·) active))) ∧
    ((compute_weekly_streaks [7, 21, 28, 35] [] 5).training.current_streak = 3 ∧
     (compute_weekly_streaks [7, 21, 28, 35] [] 5).training.longest_streak = 3) := by
  refine ⟨?_, ?_, ?_, by decide, by decide⟩
  · intro dates w
    simp [dates_to_iso_weeks]
  · intro active cw
    exact ⟨currentStreakFrom_endsAt active cw, currentStreakFrom_gap active cw⟩
  · intro active hnd
    exact ⟨longestStreakOf_exists active, longestStreakOf_ge active hnd⟩

/-- Witness for C6's hypothesis-bearing parts, at the active-week set
{1, 3, 4, 5} of the spec's example. -/
theorem compute_weekly_streaks_correct_witness :
    ([1, 3, 4, 5] : List ℕ).Nodup ∧
    (∃ e, EndsAt [1, 3, 4, 5] e
      (longestStreakOf (List.insertionSort (· ≤ ·) [1, 3, 4, 5]))) ∧
    (currentStreakFrom [1, 3, 4, 5] 5 ≤ 5 ∧
      5 - currentStreakFrom [1, 3, 4, 5] 5 ∉ [1, 3, 4, 5]) :=
  ⟨by decide,
   (compute_weekly_streaks_correct.2.2.1 [1, 3, 4, 5] (by decide)).1,
   by decide,
   (compute_weekly_streaks_correct.2.1 [1, 3, 4, 5] 5).2 (by decide)⟩

lemma corrExamplePoints_eq :
    corrExamplePoints =
      [⟨11, 1000, 1333 / 10, 0, 0, 50, 0, 0, 0⟩,
       ⟨12, 1000, 1333 / 10, 0, 0, 50, 0, 0, 0⟩,
       ⟨13, 2000, 1667 / 10, 0, 0, 200, 0, 0, 0⟩,
       ⟨14, 2000, 1667 / 10, 0, 0, 200, 0, 0, 0⟩] := by
  simp [corrExamplePoints, buildDataPoints, corrExampleWorkouts, corrExampleWorkout,
    corrExampleNutritionByDate, corrExampleNutrition, nutritionLookup,
    compute_workout_metrics, workoutTotalVolume, workoutBestE1rm, workoutValidSets,
    round1, e1rm, List.find?]
  norm_num [round_eq]

/-- C7: the correlation partitions the paired points at the sample mean
for carbs and for protein (strictly above versus at-or-below), classifies
a point as hitting the calorie goal exactly when previous-day calories are
at least 95% of the calorie goal, and on the 4-point instance with carbs
[50, 50, 200, 200] and volumes [1000, 1000, 2000, 2000] the mean split
(mean 125) puts the 50 g points in the low group and the 200 g points in
the high group, reporting a +100% volume difference. -/
theorem correlation_mean_split_correct :
    (∀ (pts : List DataPoint) (d : DataPoint),
      (d ∈ highCarbSessions pts ↔ d ∈ pts ∧ carbMean pts < d.prev_day_carbs) ∧
      (d ∈ lowCarbSessions pts ↔ d ∈ pts ∧ d.prev_day_carbs ≤ carbMean pts) ∧
      (d ∈ highProteinSessions pts ↔ d ∈ pts ∧ proteinMean pts < d.prev_day_protein) ∧
      (d ∈ lowProteinSessions pts ↔ d ∈ pts ∧ d.prev_day_protein ≤ proteinMean pts) ∧
      (d ∈ surplusSessions pts ↔ d ∈ pts ∧ d.calorie_goal * (95 / 100) ≤ d.prev_day_calories) ∧
      (d ∈ deficitSessions pts ↔ d ∈ pts ∧ d.prev_day_calories < d.calorie_goal * (95 / 100))) ∧
    (carbMean corrExamplePoints = 125 ∧
     (lowCarbSessions corrExamplePoints).map
         (fun d => (d.prev_day_carbs, d.volume)) = [(50, 1000), (50, 1000)] ∧
     (highCarbSessions corrExamplePoints).map
         (fun d => (d.prev_day_carbs, d.volume)) = [(200, 2000), (200, 2000)] ∧
     (compute_nutrition_performance_correlation corrExampleWorkouts
         corrExampleNutritionByDate).insights.head? =
       some ⟨"carb_volume", 100, some 125⟩) := by
  constructor
  · intro pts d
    refine ⟨?_, ?_, ?_, ?_, ?_, ?_⟩ <;>
      simp [highCarbSessions, lowCarbSessions, highProteinSessions,
        lowProteinSessions, surplusSessions, deficitSessions, List.mem_filter]
  · refine ⟨?_, ?_, ?_, ?_⟩
    · rw [corrExamplePoints_eq]; norm_num [carbMean]
    · rw [lowCarbSessions, corrExamplePoints_eq]
      norm_num [carbMean]
    · rw [highCarbSessions, corrExamplePoints_eq]
      norm_num [carbMean]
    · rw [compute_nutrition_performance_correlation]
      rw [show buildDataPoints corrExampleWorkouts corrExampleNutritionByDate
            = corrExamplePoints from rfl, corrExamplePoints_eq]
      norm_num [highCarbSessions, lowCarbSessions, carbMean, round1, round_eq]
      left
      simp

/-- C8: for every set with weight > 0 and reps > 0, the estimated one-rep
max computed by the analytics functions equals `weight * (1 + reps/30)`
(Epley), is strictly greater than the weight, and for fixed weight is
strictly monotonically increasing in reps. -/
theorem e1rm_epley_strict_mono (w : ℚ) (r : ℕ) (hw : 0 < w) (hr : 0 < r) :
    e1rm w r = w * (1 + (r : ℚ) / 30) ∧
    w < e1rm w r ∧
    ∀ r' : ℕ, r < r' → e1rm w r < e1rm w r' := by
  refine ⟨rfl, ?_, ?_⟩
  · have hrq : (0 : ℚ) < (r : ℚ) := by exact_mod_cast hr
    have h30 : (0 : ℚ) < (r : ℚ) / 30 := by positivity
    unfold e1rm; nlinarith
  · intro r' hlt
    have hc : (r : ℚ) < (r' : ℚ) := by exact_mod_cast hlt
    have hdiv : (r : ℚ) / 30 < (r' : ℚ) / 30 := by linarith
    unfold e1rm; nlinarith

/-- Witness for C8 at weight 100, reps 5 (and reps′ 6 for monotonicity). -/
theorem e1rm_epley_strict_mono_witness :
    (0 : ℚ) < 100 ∧ 0 < 5 ∧
      (e1rm 100 5 = 100 * (1 + (5 : ℚ) / 30) ∧ 100 < e1rm 100 5 ∧
        ∀ r' : ℕ, 5 < r' → e1rm 100 5 < e1rm 100 r') :=
  ⟨by decide, by decide, e1rm_epley_strict_mono 100 5 (by decide) (by decide)⟩

/-- C5: each upstream fetch in the Context Aggregator is independently
failure-isolated.  If the nutrition fetch raises while the training fetch
succeeds, the result has `yazio = none` and `hevy = some l`; symmetrically
a training failure does not suppress nutrition data; and a subject lacking
a source's credentials gets `none` for that source.  No exception escapes:
`gather_user_context` is a total function into `AggContext`. -/
theorem gather_user_context_failure_isolated
    (u : AggUser) (fy ft : Except Unit ℕ) (fh : Except Unit (List Workout))
    (inc : Bool) :
    (u.has_hevy_api_key = true → fy = .error () → ∀ l, fh = .ok l →
      (gather_user_context u fy ft fh inc).yazio = none ∧
      (gather_user_context u fy ft fh inc).hevy = some l) ∧
    (u.has_yazio_credentials = true → ∀ d, fy = .ok d → fh = .error () →
      (gather_user_context u fy ft fh inc).yazio = some d ∧
      (gather_user_context u fy ft fh inc).hevy = none) ∧
    (u.has_yazio_credentials = false →
      (gather_user_context u fy ft fh inc).yazio = none ∧
      (gather_user_context u fy ft fh inc).yazio_today = none) ∧
    (u.has_hevy_api_key = false →
      (gather_user_context u fy ft fh inc).hevy = none) := by
  refine ⟨?_, ?_, ?_, ?_⟩
  · rintro hk rfl l rfl
    simp [gather_user_context, hk]
  · rintro hy d rfl rfl
    cases inc <;> cases ft <;> simp [gather_user_context, hy]
  · intro hy
    simp [gather_user_context, hy]
  · intro hk
    cases u.has_yazio_credentials <;> cases fy <;> cases ft <;> cases inc <;>
      simp [gather_user_context, hk]

/-- Witness for C5: a user with both credential flags, the nutrition fetch
raising, the training fetch returning the empty workout list — the
nutrition-failure conjunct applied with its premises discharged. -/
theorem gather_user_context_failure_isolated_witness :
    (gather_user_context ⟨true, true⟩ (.error ()) (.error ()) (.ok []) true).yazio
      = none ∧
    (gather_user_context ⟨true, true⟩ (.error ()) (.error ()) (.ok []) true).hevy
      = some [] :=
  (gather_user_context_failure_isolated ⟨true, true⟩
    (.error ()) (.error ()) (.ok []) true).1 rfl rfl [] rfl

lemma foldl_max_init_le (l : List ℚ) (init : ℚ) : init ≤ l.foldl max init := by
  induction l generalizing init with
  | nil => simp
  | cons a l ih => exact le_trans (le_max_left init a) (ih (max init a))

lemma foldl_max_mem_le (l : List ℚ) (init : ℚ) (x : ℚ) (hx : x ∈ l) :
    x ≤ l.foldl max init := by
  induction l generalizing init with
  | nil => simp at hx
  | cons a l ih =>
      rcases List.mem_cons.mp hx with rfl | h
      · exact le_trans (le_max_right init x) (foldl_max_init_le l _)
      · exact ih _ h

lemma foldl_max_eq_init_or_mem (l : List ℚ) (init : ℚ) :
    l.foldl max init = init ∨ l.foldl max init ∈ l := by
  induction l generalizing init with
  | nil => exact Or.inl rfl
  | cons a l ih =>
      rcases ih (max init a) with h | h
      · rcases le_total init a with hle | hle
        · rw [List.foldl_cons, h, max_eq_right hle]
          exact Or.inr (by simp)
        · rw [List.foldl_cons, h, max_eq_left hle]
          exact Or.inl rfl
      · rw [List.foldl_cons]
        exact Or.inr (List.mem_cons_of_mem _ h)

lemma raw_route_workout : ∀ p ∈ workout_milestones,
    strength_targets.find? (fun t => t.2.2 == p.2) = none ∧
    workout_milestones.any (·.2 == p.2) = true := by decide

lemma raw_route_vol : ∀ p ∈ vol_milestones,
    strength_targets.find? (fun t => t.2.2 == p.2) = none ∧
    workout_milestones.any (·.2 == p.2) = false ∧
    vol_milestones.any (·.2 == p.2) = true := by decide

lemma raw_route_strength : ∀ t ∈ strength_targets,
    strength_targets.find? (fun t' => t'.2.2 == t.2.2) = some t := by decide

lemma raw_route_nutrition : ∀ p ∈ nutrition_milestones,
    strength_targets.find? (fun t => t.2.2 == p.2) = none ∧
    workout_milestones.any (·.2 == p.2) = false ∧
    vol_milestones.any (·.2 == p.2) = false ∧
    nutrition_milestones.any (·.2 == p.2) = true := by decide

lemma raw_route_prot : ∀ p ∈ prot_milestones,
    strength_targets.find? (fun t => t.2.2 == p.2) = none ∧
    workout_milestones.any (·.2 == p.2) = false ∧
    vol_milestones.any (·.2 == p.2) = false ∧
    nutrition_milestones.any (·.2 == p.2) = false ∧
    prot_milestones.any (·.2 == p.2) = true := by decide

lemma raw_route_streak : ∀ p ∈ streak_milestones,
    strength_targets.find? (fun t => t.2.2 == p.2) = none ∧
    workout_milestones.any (·.2 == p.2) = false ∧
    vol_milestones.any (·.2 == p.2) = false ∧
    nutrition_milestones.any (·.2 == p.2) = false ∧
    prot_milestones.any (·.2 == p.2) = false ∧
    streak_milestones.any (·.2 == p.2) = true := by decide

lemma raw_route_weight : ∀ p ∈ weight_milestones,
    strength_targets.find? (fun t => t.2.2 == p.2) = none ∧
    workout_milestones.any (·.2 == p.2) = false ∧
    vol_milestones.any (·.2 == p.2) = false ∧
    nutrition_milestones.any (·.2 == p.2) = false ∧
    prot_milestones.any (·.2 == p.2) = false ∧
    streak_milestones.any (·.2 == p.2) = false ∧
    weight_milestones.any (·.2 == p.2) = true := by decide

lemma raw_route_variety : ∀ p ∈ variety_milestones,
    strength_targets.find? (fun t => t.2.2 == p.2) = none ∧
    workout_milestones.any (·.2 == p.2) = false ∧
    vol_milestones.any (·.2 == p.2) = false ∧
    nutrition_milestones.any (·.2 == p.2) = false ∧
    prot_milestones.any (·.2 == p.2) = false ∧
    streak_milestones.any (·.2 == p.2) = false ∧
    weight_milestones.any (·.2 == p.2) = false := by decide

lemma count_unlocked_iff (v t : ℕ) :
    decide (t ≤ v) = true ↔ ((t : ℕ) : ℚ) ≤ ((v : ℕ) : ℚ) := by
  simp

/-- C9: every milestone produced by the achievement computation is
unlocked exactly when the subject's raw progress value for that milestone
reaches its threshold; in particular a subject with exactly 10 completed
workouts gets the 10-workout milestone with progress 10, target 10,
unlocked, and with 9 workouts gets it locked. -/
theorem compute_achievements_unlocked_iff :
    (∀ (workouts : List Workout) (nutrition_dates workout_dates : List ℕ)
        (weight_entries : List WeightEntryRow)
        (nutrition_by_date : List (ℕ × NutritionDay)) (current_week : ℕ),
      ∀ a ∈ compute_achievements workouts nutrition_dates workout_dates
          weight_entries nutrition_by_date current_week,
        (a.unlocked = true ↔
          a.target ≤ achievementRawProgress workouts nutrition_dates workout_dates
            weight_entries nutrition_by_date current_week a.id)) ∧
    ((compute_achievements (List.replicate 10 emptyWorkout) [] [] [] [] 0).find?
        (fun a => a.id == "10_workouts") =
      some ⟨"10_workouts", "training", true, 10, 10⟩) ∧
    (((compute_achievements (List.replicate 9 emptyWorkout) [] [] [] [] 0).find?
        (fun a => a.id == "10_workouts")).map (·.unlocked) = some false) := by
  refine ⟨?_, by decide, by decide⟩
  intro ws nd wd we nbd cw a ha
  simp only [compute_achievements, List.append_assoc, List.mem_append,
    List.mem_map] at ha
  rcases ha with ⟨p, hp, rfl⟩ | ⟨p, hp, rfl⟩ | ⟨p, hp, rfl⟩ | ⟨p, hp, rfl⟩ |
    ⟨p, hp, rfl⟩ | ⟨p, hp, rfl⟩ | hw | ⟨p, hp, rfl⟩
  · simp [mkCountAch, achievementRawProgress, (raw_route_workout p hp).1,
      (raw_route_workout p hp).2]
  · obtain ⟨h1, h2, h3⟩ := raw_route_vol p hp
    simp [achievementRawProgress, h1, h2, h3]
  · simp [achievementRawProgress, raw_route_strength p hp]
  · obtain ⟨h1, h2, h3, h4⟩ := raw_route_nutrition p hp
    simp [mkCountAch, achievementRawProgress, h1, h2, h3, h4]
  · obtain ⟨h1, h2, h3, h4, h5⟩ := raw_route_prot p hp
    simp [mkCountAch, achievementRawProgress, h1, h2, h3, h4, h5]
  · obtain ⟨h1, h2, h3, h4, h5, h6⟩ := raw_route_streak p hp
    simp [mkCountAch, achievementRawProgress, h1, h2, h3, h4, h5, h6]
  · split at hw
    · simp only [List.mem_map] at hw
      obtain ⟨p, hp, rfl⟩ := hw
      obtain ⟨h1, h2, h3, h4, h5, h6, h7⟩ := raw_route_weight p hp
      simp [achievementRawProgress, h1, h2, h3, h4, h5, h6, h7]
    · simp at hw
  · obtain ⟨h1, h2, h3, h4, h5, h6, h7⟩ := raw_route_variety p hp
    simp [mkCountAch, achievementRawProgress, h1, h2, h3, h4, h5, h6, h7]

/-- Witness for C9's universally quantified part, instantiated at the
10-workout boundary subject and the 10-workout milestone entry. -/
theorem compute_achievements_unlocked_iff_witness :
    (⟨"10_workouts", "training", true, 10, 10⟩ : Achievement) ∈
      compute_achievements (List.replicate 10 emptyWorkout) [] [] [] [] 0 ∧
    ((⟨"10_workouts", "training", true, 10, 10⟩ : Achievement).unlocked = true ↔
      (10 : ℚ) ≤ achievementRawProgress (List.replicate 10 emptyWorkout)
        [] [] [] [] 0 "10_workouts") :=
  ⟨by decide,
   compute_achievements_unlocked_iff.1 (List.replicate 10 emptyWorkout)
     [] [] [] [] 0 ⟨"10_workouts", "training", true, 10, 10⟩ (by decide)⟩

/-- C10: a named-exercise strength milestone's progress value is the
maximum raw set weight over valid sets of exercises whose title contains
the milestone's exercise name case-insensitively (bounded above by it and
attained unless zero); the milestone is unlocked exactly when that maximum
weight reaches the threshold; and the estimated one-rep max is not used: a
95 kg × 10 bench set (e1RM > 100) leaves the 100 kg bench milestone
locked. -/
theorem strength_milestones_raw_weight :
    (∀ (workouts : List Workout) (ex_name : String),
      (∀ t ∈ allValidSets workouts,
        occursIn (lowerStr ex_name) (lowerStr t.1) = true →
          t.2.1 ≤ maxWeightFor workouts ex_name) ∧
      (maxWeightFor workouts ex_name = 0 ∨
        ∃ t ∈ allValidSets workouts,
          occursIn (lowerStr ex_name) (lowerStr t.1) = true ∧
          t.2.1 = maxWeightFor workouts ex_name)) ∧
    (∀ (workouts : List Workout) (nutrition_dates workout_dates : List ℕ)
        (weight_entries : List WeightEntryRow)
        (nutrition_by_date : List (ℕ × NutritionDay)) (current_week : ℕ),
      ∀ a ∈ compute_achievements workouts nutrition_dates workout_dates
          weight_entries nutrition_by_date current_week,
        a.category = "strength" →
          ∃ t ∈ strength_targets, a.id = t.2.2 ∧
            (a.unlocked = true ↔ (t.2.1 : ℚ) ≤ maxWeightFor workouts t.1)) ∧
    (maxWeightFor [benchWorkout] "Bench Press (Barbell)" = 95 ∧
     (100 : ℚ) < e1rm 95 10 ∧
     ((compute_achievements [benchWorkout] [] [] [] [] 0).find?
         (fun a => a.id == "bench_100")).map (·.unlocked) = some false) := by
  refine ⟨?_, ?_, by decide, by norm_num [e1rm], by decide⟩
  · intro workouts ex_name
    constructor
    · intro t ht hocc
      have hmem : t ∈ (allValidSets workouts).filter
          (fun t => occursIn (lowerStr ex_name) (lowerStr t.1)) :=
        List.mem_filter.mpr ⟨ht, hocc⟩
      have : t.2.1 ∈ ((allValidSets workouts).filter
          (fun t => occursIn (lowerStr ex_name) (lowerStr t.1))).map (·.2.1) :=
        List.mem_map.mpr ⟨t, hmem, rfl⟩
      have hle := foldl_max_mem_le _ 0 _ this
      rwa [List.foldl_map] at hle
    · have := foldl_max_eq_init_or_mem
        (((allValidSets workouts).filter
          (fun t => occursIn (lowerStr ex_name) (lowerStr t.1))).map (·.2.1)) 0
      rw [List.foldl_map] at this
      rcases this with h | h
      · exact Or.inl h
      · right
        obtain ⟨t, htmem, hteq⟩ := List.mem_map.mp h
        obtain ⟨ht, hocc⟩ := List.mem_filter.mp htmem
        exact ⟨t, ht, hocc, hteq⟩
  · intro ws nd wd we nbd cw a ha hcat
    simp only [compute_achievements, List.append_assoc, List.mem_append,
      List.mem_map] at ha
    rcases ha with ⟨p, hp, rfl⟩ | ⟨p, hp, rfl⟩ | ⟨p, hp, rfl⟩ | ⟨p, hp, rfl⟩ |
      ⟨p, hp, rfl⟩ | ⟨p, hp, rfl⟩ | hw | ⟨p, hp, rfl⟩
    · simp [mkCountAch] at hcat
    · simp at hcat
    · exact ⟨p, hp, rfl, by simp⟩
    · simp [mkCountAch] at hcat
    · simp [mkCountAch] at hcat
    · simp [mkCountAch] at hcat
    · split at hw
      · simp only [List.mem_map] at hw
        obtain ⟨p, hp, rfl⟩ := hw
        simp at hcat
      · simp at hw
    · simp [mkCountAch] at hcat

/-- Witness for C10's hypothesis-bearing parts, at the bench example. -/
theorem strength_milestones_raw_weight_witness :
    (("Bench Press (Barbell)", (95 : ℚ), 10) ∈ allValidSets [benchWorkout] ∧
      occursIn (lowerStr "Bench Press (Barbell)")
        (lowerStr ("Bench Press (Barbell)", (95 : ℚ), 10).1) = true ∧
      ((("Bench Press (Barbell)", (95 : ℚ), 10) : String × ℚ × ℕ).2.1 ≤
        maxWeightFor [benchWorkout] "Bench Press (Barbell)")) :=
  ⟨by decide, by decide,
   ((strength_milestones_raw_weight.1 [benchWorkout] "Bench Press (Barbell)").1
     ("Bench Press (Barbell)", (95 : ℚ), 10) (by decide) (by decide))⟩

lemma hasReview_append (db : List WorkoutReviewRow) (uid : ℕ)
    (row : WorkoutReviewRow) (sid : String) :
    hasReview (db ++ [row]) uid sid =
      (hasReview db uid sid || (row.user_id == uid && row.hevy_workout_id == sid)) := by
  simp [hasReview]

lemma runReviewLoop_mono (uid : ℕ) (gen : String → Option (ℕ × ℕ)) (k : ℕ) :
    ∀ (ws : List Workout) (db : List WorkoutReviewRow) (g : ℕ)
      (r : WorkoutReviewRow), r ∈ db →
      r ∈ (runReviewLoop uid gen k ws db g).db := by
  intro ws
  induction ws with
  | nil => intro db g r hr; exact hr
  | cons w ws ih =>
      intro db g r hr
      rw [runReviewLoop]
      split
      · exact ih db g r hr
      split
      · exact ih db g r hr
      split
      · exact hr
      split
      · exact ih _ _ r (List.mem_append_left _ hr)
      · exact ih db g r hr

lemma hasReview_mono_run (uid : ℕ) (gen : String → Option (ℕ × ℕ)) (k : ℕ)
    (ws : List Workout) (db : List WorkoutReviewRow) (g : ℕ) (sid : String)
    (h : hasReview db uid sid = true) :
    hasReview (runReviewLoop uid gen k ws db g).db uid sid = true := by
  obtain ⟨r, hr, hp⟩ := List.any_eq_true.mp h
  exact List.any_eq_true.mpr ⟨r, runReviewLoop_mono uid gen k ws db g r hr, hp⟩

lemma runReviewLoop_preserves (uid : ℕ) (gen : String → Option (ℕ × ℕ))
    (k : ℕ) (sid : String) :
    ∀ (ws : List Workout) (db : List WorkoutReviewRow) (g : ℕ),
      hasReview db uid sid = true →
      ((runReviewLoop uid gen k ws db g).db.filter
          (fun r => r.user_id == uid && r.hevy_workout_id == sid) =
        db.filter (fun r => r.user_id == uid && r.hevy_workout_id == sid)) ∧
      sid ∉ (runReviewLoop uid gen k ws db g).gen_calls := by
  intro ws
  induction ws with
  | nil =>
      intro db g h
      exact ⟨rfl, by simp [runReviewLoop]⟩
  | cons w ws ih =>
      intro db g h
      rw [runReviewLoop]
      by_cases h1 : w.id = ""
      · rw [if_pos h1]; exact ih db g h
      rw [if_neg h1]
      by_cases h2 : hasReview db uid w.id = true
      · rw [if_pos h2]; exact ih db g h
      rw [if_neg h2]
      have hne : w.id ≠ sid := fun he => h2 (he ▸ h)
      by_cases h3 : k ≤ g
      · rw [if_pos h3]; exact ⟨rfl, by simp⟩
      rw [if_neg h3]
      rcases hg : gen w.id with _ | ⟨r, t⟩
      · simp only [hg]
        obtain ⟨ha, hb⟩ := ih db g h
        refine ⟨ha, ?_⟩
        intro hmem
        rcases List.mem_cons.mp hmem with he | hm
        · exact hne he.symm
        · exact hb hm
      · simp only [hg]
        have h' : hasReview (db ++ [⟨uid, w.id, w.title, r, t, false⟩]) uid sid = true := by
          rw [hasReview_append]; simp [h]
        obtain ⟨ha, hb⟩ := ih _ (g + 1) h'
        constructor
        · rw [ha, List.filter_append]
          simp [hne]
        · intro hmem
          rcases List.mem_cons.mp hmem with he | hm
          · exact hne he.symm
          · exact hb hm

/-- C1: once a Workout Review row exists for (subject, session id), a run
of the detection job whose fetched list contains that session neither
creates a second row for that key nor mutates the existing one (the rows
with that key are exactly the rows before the run), and the session is
skipped before any generation call (its id is never passed to the
generation pipeline). -/
theorem workout_review_never_regenerated (uid : ℕ)
    (gen : String → Option (ℕ × ℕ)) (k : ℕ) (ws : List Workout)
    (db : List WorkoutReviewRow) (sid : String)
    (hctn : ∃ w ∈ ws, w.id = sid)
    (hex : hasReview db uid sid = true) :
    ((generate_workout_review_for_user uid gen k (some ws) db).db.filter
        (fun r => r.user_id == uid && r.hevy_workout_id == sid) =
      db.filter (fun r => r.user_id == uid && r.hevy_workout_id == sid)) ∧
    sid ∉ (generate_workout_review_for_user uid gen k (some ws) db).gen_calls := by
  cases ws with
  | nil => obtain ⟨w, hw, _⟩ := hctn; simp at hw
  | cons w ws => exact runReviewLoop_preserves uid gen k sid (w :: ws) db 0 hex

/-- Witness for C1: a one-session fetch whose session already has a row. -/
theorem workout_review_never_regenerated_witness :
    (∃ w ∈ [(⟨"s1", "Push", none, none, []⟩ : Workout)], w.id = "s1") ∧
    hasReview [⟨7, "s1", "Push", 0, 0, false⟩] 7 "s1" = true ∧
    (((generate_workout_review_for_user 7 (fun _ => none) 3
          (some [⟨"s1", "Push", none, none, []⟩])
          [⟨7, "s1", "Push", 0, 0, false⟩]).db.filter
        (fun r => r.user_id == 7 && r.hevy_workout_id == "s1") =
      [(⟨7, "s1", "Push", 0, 0, false⟩ : WorkoutReviewRow)].filter
        (fun r => r.user_id == 7 && r.hevy_workout_id == "s1")) ∧
    "s1" ∉ (generate_workout_review_for_user 7 (fun _ => none) 3
        (some [⟨"s1", "Push", none, none, []⟩])
        [⟨7, "s1", "Push", 0, 0, false⟩]).gen_calls) :=
  ⟨by decide, by decide,
   workout_review_never_regenerated 7 (fun _ => none) 3
     [⟨"s1", "Push", none, none, []⟩] [⟨7, "s1", "Push", 0, 0, false⟩] "s1"
     (by decide) (by decide)⟩

lemma runReviewLoop_count (uid : ℕ) (gen : String → Option (ℕ × ℕ)) (k : ℕ) :
    ∀ (ws : List Workout) (db : List WorkoutReviewRow) (g : ℕ), g ≤ k →
      (ws.map Workout.id).Nodup →
      (∀ w ∈ ws, w.id ≠ "") →
      (∀ w ∈ ws, (gen w.id).isSome) →
      (runReviewLoop uid gen k ws db g).generated =
        g + min (k - g) (unreviewedCount db uid ws) ∧
      (runReviewLoop uid gen k ws db g).db.length =
        db.length + min (k - g) (unreviewedCount db uid ws) ∧
      unreviewedCount (runReviewLoop uid gen k ws db g).db uid ws =
        unreviewedCount db uid ws - min (k - g) (unreviewedCount db uid ws) := by
  intro ws
  induction ws with
  | nil =>
      intro db g hg _ _ _
      simp [runReviewLoop, unreviewedCount]
  | cons w ws ih =>
      intro db g hgk hnodup hne hgen
      have hwid : w.id ≠ "" := hne w (by simp)
      have hnodup' : (ws.map Workout.id).Nodup := (List.nodup_cons.mp hnodup).2
      have hwnot : ∀ w' ∈ ws, w'.id ≠ w.id := by
        intro w' hw' he
        exact (List.nodup_cons.mp hnodup).1 (he ▸ List.mem_map_of_mem Workout.id hw')
      rw [runReviewLoop, if_neg hwid]
      by_cases h2 : hasReview db uid w.id = true
      · rw [if_pos h2]
        have hcnt : unreviewedCount db uid (w :: ws) = unreviewedCount db uid ws := by
          simp [unreviewedCount, List.filter_cons, h2]
        obtain ⟨ha, hb, hc⟩ := ih db g hgk hnodup' (fun x hx => hne x (by simp [hx]))
          (fun x hx => hgen x (by simp [hx]))
        refine ⟨by rw [hcnt]; exact ha, by rw [hcnt]; exact hb, ?_⟩
        have h2' : hasReview (runReviewLoop uid gen k ws db g).db uid w.id = true :=
          hasReview_mono_run uid gen k ws db g w.id h2
        rw [hcnt]
        simpa [unreviewedCount, List.filter_cons, h2'] using hc
      · rw [if_neg h2]
        by_cases h3 : k ≤ g
        · rw [if_pos h3]
          have : k - g = 0 := by omega
          simp [this]
        rw [if_neg h3]
        obtain ⟨⟨rr, tt⟩, hg⟩ := Option.isSome_iff_exists.mp (hgen w (by simp))
        simp only [hg]
        have hrowmem : (⟨uid, w.id, w.title, rr, tt, false⟩ : WorkoutReviewRow) ∈
            db ++ [⟨uid, w.id, w.title, rr, tt, false⟩] := by simp
        have hrev' : ∀ w' ∈ ws,
            hasReview (db ++ [⟨uid, w.id, w.title, rr, tt, false⟩]) uid w'.id =
              hasReview db uid w'.id := by
          intro w' hw'
          rw [hasReview_append]
          have : (w.id == w'.id) = false := by
            simp only [beq_eq_false_iff_ne, ne_eq]
            exact fun he => hwnot w' hw' he.symm
          simp [this]
        have hcnt' : unreviewedCount (db ++ [⟨uid, w.id, w.title, rr, tt, false⟩]) uid ws =
            unreviewedCount db uid ws := by
          unfold unreviewedCount
          congr 1
          apply List.filter_congr
          intro x hx
          rw [hrev' x hx]
        obtain ⟨ha, hb, hc⟩ := ih (db ++ [⟨uid, w.id, w.title, rr, tt, false⟩]) (g + 1)
          (by omega) hnodup' (fun x hx => hne x (by simp [hx]))
          (fun x hx => hgen x (by simp [hx]))
        rw [hcnt'] at ha hb hc
        have hm : unreviewedCount db uid (w :: ws) = 1 + unreviewedCount db uid ws := by
          simp [unreviewedCount, List.filter_cons, h2]
          omega
        have hwrev : hasReview (runReviewLoop uid gen k ws
            (db ++ [⟨uid, w.id, w.title, rr, tt, false⟩]) (g + 1)).db uid w.id = true := by
          apply hasReview_mono_run
          rw [hasReview_append]
          simp
        refine ⟨?_, ?_, ?_⟩
        · rw [ha, hm]; omega
        · rw [hb, hm]; simp; omega
        · rw [hm]
          have : unreviewedCount (runReviewLoop uid gen k ws
              (db ++ [⟨uid, w.id, w.title, rr, tt, false⟩]) (g + 1)).db uid (w :: ws) =
            unreviewedCount (runReviewLoop uid gen k ws
              (db ++ [⟨uid, w.id, w.title, rr, tt, false⟩]) (g + 1)).db uid ws := by
            simp [unreviewedCount, List.filter_cons, hwrev]
          rw [this, hc]
          omega

/-- C4: over a fetched list of distinct, non-empty session ids in which
`m` sessions have no existing review, a run with cap `k` (3 for the hourly
job, 5 for a manual trigger — the cap is this parameter) in which every
generation succeeds creates exactly `min k m` new Workout Review rows;
already-reviewed sessions do not count against the cap, and exactly
`m - min k m` sessions are left un-reviewed for later runs (not marked
done). -/
theorem bounded_generation (uid : ℕ) (gen : String → Option (ℕ × ℕ)) (k : ℕ)
    (ws : List Workout) (db : List WorkoutReviewRow)
    (hnodup : (ws.map Workout.id).Nodup)
    (hne : ∀ w ∈ ws, w.id ≠ "")
    (hgen : ∀ w ∈ ws, (gen w.id).isSome) :
    (generate_workout_review_for_user uid gen k (some ws) db).generated =
      min k (unreviewedCount db uid ws) ∧
    (generate_workout_review_for_user uid gen k (some ws) db).db.length =
      db.length + min k (unreviewedCount db uid ws) ∧
    unreviewedCount (generate_workout_review_for_user uid gen k (some ws) db).db
        uid ws =
      unreviewedCount db uid ws - min k (unreviewedCount db uid ws) := by
  cases ws with
  | nil => simp [generate_workout_review_for_user, unreviewedCount]
  | cons w ws =>
      have h := runReviewLoop_count uid gen k (w :: ws) db 0 (Nat.zero_le k)
        hnodup hne hgen
      simpa [generate_workout_review_for_user] using h

/-- Witness for C4: two un-reviewed sessions, cap 1, all generations
succeed — exactly 1 new review, 1 session deferred. -/
theorem bounded_generation_witness :
    (([(⟨"a", "W", none, none, []⟩ : Workout),
       ⟨"b", "W", none, none, []⟩].map Workout.id).Nodup) ∧
    (∀ w ∈ [(⟨"a", "W", none, none, []⟩ : Workout), ⟨"b", "W", none, none, []⟩],
      w.id ≠ "") ∧
    (∀ w ∈ [(⟨"a", "W", none, none, []⟩ : Workout), ⟨"b", "W", none, none, []⟩],
      ((fun _ => some (0, 0) : String → Option (ℕ × ℕ)) w.id).isSome) ∧
    ((generate_workout_review_for_user 0 (fun _ => some (0, 0)) 1
        (some [⟨"a", "W", none, none, []⟩, ⟨"b", "W", none, none, []⟩]) []).generated =
      min 1 (unreviewedCount [] 0
        [⟨"a", "W", none, none, []⟩, ⟨"b", "W", none, none, []⟩]) ∧
     (generate_workout_review_for_user 0 (fun _ => some (0, 0)) 1
        (some [⟨"a", "W", none, none, []⟩, ⟨"b", "W", none, none, []⟩]) []).db.length =
      ([] : List WorkoutReviewRow).length + min 1 (unreviewedCount [] 0
        [⟨"a", "W", none, none, []⟩, ⟨"b", "W", none, none, []⟩]) ∧
     unreviewedCount (generate_workout_review_for_user 0 (fun _ => some (0, 0)) 1
        (some [⟨"a", "W", none, none, []⟩, ⟨"b", "W", none, none, []⟩]) []).db 0
        [⟨"a", "W", none, none, []⟩, ⟨"b", "W", none, none, []⟩] =
      unreviewedCount [] 0 [⟨"a", "W", none, none, []⟩, ⟨"b", "W", none, none, []⟩] -
        min 1 (unreviewedCount [] 0
          [⟨"a", "W", none, none, []⟩, ⟨"b", "W", none, none, []⟩])) :=
  ⟨by decide, by decide, by decide,
   bounded_generation 0 (fun _ => some (0, 0)) 1
     [⟨"a", "W", none, none, []⟩, ⟨"b", "W", none, none, []⟩] []
     (by decide) (by decide) (by decide)⟩

/-- C2: with no Daily Artifact stored for (subject, today), running the
daily job twice (first generation succeeding) leaves exactly one stored
artifact for that key; the second run finds the existing artifact,
performs no aggregation, no generation and no write, and reports
success. -/
theorem daily_artifact_idempotent (uid today : ℕ) (cw1 cw2 : Option ℚ)
    (payload : ℕ) (gen2 : Option ℕ)
    (briefings : List MorningBriefingRow) (weights : List WeightRow)
    (h0 : hasBriefing briefings uid today = false) :
    (let r1 := generate_for_user uid today cw1 (some payload) briefings weights
     let r2 := generate_for_user uid today cw2 gen2 r1.briefings r1.weights
     (r2.briefings.filter (fun b => b.user_id == uid && b.date == today)).length = 1 ∧
     r2.ok = true ∧ r2.aggregated = false ∧ r2.generated = false ∧
     r2.briefings = r1.briefings ∧ r2.weights = r1.weights) := by
  have hr1 : (generate_for_user uid today cw1 (some payload) briefings weights).briefings
      = briefings ++ [⟨uid, today, payload⟩] := by
    unfold generate_for_user
    rw [if_neg (by rw [h0]; exact Bool.false_ne_true)]
  have hb : hasBriefing (briefings ++ [⟨uid, today, payload⟩]) uid today = true := by
    simp [hasBriefing]
  have hnil : briefings.filter (fun b => b.user_id == uid && b.date == today) = [] := by
    rw [List.filter_eq_nil_iff]
    intro b hbmem hp
    have hcontra : hasBriefing briefings uid today = true :=
      List.any_eq_true.mpr ⟨b, hbmem, hp⟩
    rw [h0] at hcontra
    exact Bool.false_ne_true hcontra
  intro r1 r2
  have hbr : r1.briefings = briefings ++ [⟨uid, today, payload⟩] := hr1
  have hr2eq : r2 = ⟨r1.briefings, r1.weights, true, false, false⟩ := by
    have hcond : hasBriefing r1.briefings uid today = true := by rw [hbr]; exact hb
    show generate_for_user uid today cw2 gen2 r1.briefings r1.weights = _
    unfold generate_for_user
    rw [if_pos hcond]
  rw [hr2eq]
  refine ⟨?_, rfl, rfl, rfl, rfl, rfl⟩
  show ((r1.briefings).filter _).length = 1
  rw [hbr, List.filter_append, hnil]
  simp

/-- Witness for C2 at a fresh subject with empty tables. -/
theorem daily_artifact_idempotent_witness :
    hasBriefing [] 1 5 = false ∧
    (let r1 := generate_for_user 1 5 none (some 42) [] []
     let r2 := generate_for_user 1 5 none none r1.briefings r1.weights
     (r2.briefings.filter (fun b => b.user_id == 1 && b.date == 5)).length = 1 ∧
     r2.ok = true ∧ r2.aggregated = false ∧ r2.generated = false ∧
     r2.briefings = r1.briefings ∧ r2.weights = r1.weights) :=
  ⟨by decide, daily_artifact_idempotent 1 5 none none 42 none [] [] (by decide)⟩

/-- C3: when persisting a Daily Artifact races with another writer that
already stored the row for (subject, date), the commit's unique-key
conflict is recovered by re-reading: the handler returns the now-existing
row with the store unchanged (no duplicate), and no error surfaces. -/
theorem briefing_conflict_recovered (uid today d : ℕ)
    (store : List MorningBriefingRow)
    (h : hasBriefing store uid today = true) :
    ∃ r, generate_and_save uid today d store = .ok (r, store) ∧
      r ∈ store ∧ r.user_id = uid ∧ r.date = today := by
  obtain ⟨b, hb, hp⟩ := List.any_eq_true.mp h
  rcases hf : store.find? (fun b => b.user_id == uid && b.date == today) with _ | r
  · exact absurd hp (by simpa using List.find?_eq_none.mp hf b hb)
  · have hmem := List.mem_of_find?_eq_some hf
    have hpr := List.find?_some hf
    simp only [Bool.and_eq_true, beq_iff_eq] at hpr
    refine ⟨r, ?_, hmem, hpr.1, hpr.2⟩
    rw [generate_and_save, if_pos h, hf]

/-- Witness for C3: a store already holding the racing writer's row. -/
theorem briefing_conflict_recovered_witness :
    hasBriefing [⟨3, 9, 7⟩] 3 9 = true ∧
    ∃ r, generate_and_save 3 9 11 [⟨3, 9, 7⟩] = .ok (r, [⟨3, 9, 7⟩]) ∧
      r ∈ [(⟨3, 9, 7⟩ : MorningBriefingRow)] ∧ r.user_id = 3 ∧ r.date = 9 :=
  ⟨by decide, briefing_conflict_recovered 3 9 11 [⟨3, 9, 7⟩] (by decide)⟩

end HevyCoach
